import Mathlib

/-!
Verification development for the bridge-client core: the oracle price-path
validator (`src/oracle/src/config.rs`) and the Bitcoin address codec and
deposit-key derivation (`src/bitcoin/src/addr.rs`).

Everything is a shallow embedding of the source; external collaborators
(currency helpers from `currency.rs`, the secp256k1 arithmetic provider,
the rust-bitcoin string codec) are modelled from the specification, each
marked with a doc comment starting `Modelled from the spec:`.
-/

instance {ε α : Type _} [DecidableEq ε] [DecidableEq α] : DecidableEq (Except ε α)
  | .error a, .error b =>
    if h : a = b then .isTrue (by rw [h]) else .isFalse (by simp [h])
  | .error _, .ok _ => .isFalse (by simp)
  | .ok _, .error _ => .isFalse (by simp)
  | .ok a, .ok b =>
    if h : a = b then .isTrue (by rw [h]) else .isFalse (by simp [h])

namespace OracleCfg

/-- Modelled from the spec: feed names (`FeedName` in `feeds.rs`, which is
not part of the visible sources) are identifiers of named external price
sources, here represented as strings; a `BTreeMap` keyed by them iterates
in ascending key order. -/
abbrev FeedName := String

/-- `CurrencyPair<Currency>` from the oracle crate: a directional pair of
currency identifiers. -/
structure CurrencyPair (C : Type) where
  base : C
  quote : C
deriving DecidableEq

/-- Modelled from the spec: the membership test of `CurrencyPair`
(`currency.rs` is not part of the visible sources) — a pair contains a
currency when it is one of its two legs. -/
def CurrencyPair.contains {C : Type} [DecidableEq C] (p : CurrencyPair C) (x : C) : Bool :=
  decide (p.base = x ∨ p.quote = x)

/-- Modelled from the spec: the shared-leg test of `CurrencyPair`
(`currency.rs` is not part of the visible sources) — two pairs share a leg
when any of the left pair's legs equals any of the right pair's legs. -/
def CurrencyPair.has_shared {C : Type} [DecidableEq C] (l r : CurrencyPair C) : Bool :=
  l.contains r.base || l.contains r.quote

/-- `ConfigError` from `error.rs` as used by `PriceConfig::validate`. -/
inductive ConfigError (C : Type) where
  | NoStart
  | NoEnd
  | NoPath (left right : CurrencyPair C)
deriving DecidableEq

/-- `PriceConfigError` from `error.rs`: a `ConfigError` tagged with the
offending feed and the declared target pair. -/
structure PriceConfigError (C : Type) where
  feed : FeedName
  pair : CurrencyPair C
  error : ConfigError C
deriving DecidableEq

/-- `PriceConfig<Currency>` (`config.rs` lines 42-51).  `feeds` lists the
entries of the `BTreeMap` in ascending key order. -/
structure PriceConfig (C : Type) where
  pair : CurrencyPair C
  value : Option Float
  feeds : List (FeedName × List (CurrencyPair C))

/-- The start check of `validate` (`config.rs` lines 59-67): match on
`path.first()`, with guards `contains(base)` then `contains(quote)`,
returning the required other end of the path, else `NoStart`. -/
def requiredEnd {C : Type} [DecidableEq C] (pair : CurrencyPair C) (feed : FeedName)
    (path : List (CurrencyPair C)) : Except (PriceConfigError C) C :=
  match path.head? with
  | some currency_pair =>
    if currency_pair.contains pair.base then .ok pair.quote
    else if currency_pair.contains pair.quote then .ok pair.base
    else .error ⟨feed, pair, .NoStart⟩
  | none => .error ⟨feed, pair, .NoStart⟩

/-- The end check of `validate` (`config.rs` lines 69-77): match on
`path.last()`, with guards `base == end` then `quote == end`, else
`NoEnd`. -/
def checkEnd {C : Type} [DecidableEq C] (pair : CurrencyPair C) (feed : FeedName)
    (endCur : C) (path : List (CurrencyPair C)) : Except (PriceConfigError C) Unit :=
  match path.getLast? with
  | some cp =>
    if cp.base = endCur then .ok ()
    else if cp.quote = endCur then .ok ()
    else .error ⟨feed, pair, .NoEnd⟩
  | none => .error ⟨feed, pair, .NoEnd⟩

/-- The chain check of `validate` (`config.rs` lines 79-87): walk the
windows of width two and fail with `NoPath(left, right)` at the first
adjacent pair sharing no leg. -/
def checkChain {C : Type} [DecidableEq C] (pair : CurrencyPair C) (feed : FeedName) :
    List (CurrencyPair C) → Except (PriceConfigError C) Unit
  | left :: right :: rest =>
    if left.has_shared right then checkChain pair feed (right :: rest)
    else .error ⟨feed, pair, .NoPath left right⟩
  | _ => .ok ()

/-- The per-feed body of `validate` (`config.rs` lines 58-88): start check
(whose `?` propagates `NoStart`), end check, chain check, in that order. -/
def validateFeed {C : Type} [DecidableEq C] (pair : CurrencyPair C) (feed : FeedName)
    (path : List (CurrencyPair C)) : Except (PriceConfigError C) Unit :=
  match requiredEnd pair feed path with
  | .error err => .error err
  | .ok endCur =>
    match checkEnd pair feed endCur path with
    | .error err => .error err
    | .ok _ => checkChain pair feed path

/-- The feed loop of `validate` (`config.rs` line 58): feeds are processed
in map iteration order, short-circuiting on the first failing feed. -/
def validateFeeds {C : Type} [DecidableEq C] (pair : CurrencyPair C) :
    List (FeedName × List (CurrencyPair C)) → Except (PriceConfigError C) Unit
  | [] => .ok ()
  | (feed, path) :: rest =>
    match validateFeed pair feed path with
    | .error err => .error err
    | .ok _ => validateFeeds pair rest

/-- `PriceConfig::validate` (`config.rs` lines 57-91). -/
def PriceConfig.validate {C : Type} [DecidableEq C] (self : PriceConfig C) :
    Except (PriceConfigError C) Unit :=
  validateFeeds self.pair self.feeds

/-! Helper lemmas about the reduction behaviour of the validator. -/

theorem validateFeed_error_start {C : Type} [DecidableEq C] {pair : CurrencyPair C}
    {feed : FeedName} {path : List (CurrencyPair C)} {err : PriceConfigError C}
    (h : requiredEnd pair feed path = .error err) :
    validateFeed pair feed path = .error err := by
  unfold validateFeed
  rw [h]

theorem validateFeed_ok_start {C : Type} [DecidableEq C] {pair : CurrencyPair C}
    {feed : FeedName} {path : List (CurrencyPair C)} {endCur : C}
    (h : requiredEnd pair feed path = .ok endCur) :
    validateFeed pair feed path =
      match checkEnd pair feed endCur path with
      | .error err => .error err
      | .ok _ => checkChain pair feed path := by
  unfold validateFeed
  rw [h]

theorem validateFeed_error_end {C : Type} [DecidableEq C] {pair : CurrencyPair C}
    {feed : FeedName} {path : List (CurrencyPair C)} {endCur : C} {err : PriceConfigError C}
    (h1 : requiredEnd pair feed path = .ok endCur)
    (h2 : checkEnd pair feed endCur path = .error err) :
    validateFeed pair feed path = .error err := by
  rw [validateFeed_ok_start h1, h2]

theorem validateFeed_to_chain {C : Type} [DecidableEq C] {pair : CurrencyPair C}
    {feed : FeedName} {path : List (CurrencyPair C)} {endCur : C}
    (h1 : requiredEnd pair feed path = .ok endCur)
    (h2 : checkEnd pair feed endCur path = .ok ()) :
    validateFeed pair feed path = checkChain pair feed path := by
  rw [validateFeed_ok_start h1, h2]

theorem validateFeeds_cons_error {C : Type} [DecidableEq C] {pair : CurrencyPair C}
    {feed : FeedName} {path : List (CurrencyPair C)}
    {rest : List (FeedName × List (CurrencyPair C))} {err : PriceConfigError C}
    (h : validateFeed pair feed path = .error err) :
    validateFeeds pair ((feed, path) :: rest) = .error err := by
  unfold validateFeeds
  rw [h]

theorem validateFeeds_cons_ok {C : Type} [DecidableEq C] {pair : CurrencyPair C}
    {feed : FeedName} {path : List (CurrencyPair C)}
    {rest : List (FeedName × List (CurrencyPair C))}
    (h : validateFeed pair feed path = .ok ()) :
    validateFeeds pair ((feed, path) :: rest) = validateFeeds pair rest := by
  conv_lhs => unfold validateFeeds
  rw [h]

theorem validateFeeds_append_ok {C : Type} [DecidableEq C] (pair : CurrencyPair C)
    (pre rest : List (FeedName × List (CurrencyPair C)))
    (hpre : ∀ x ∈ pre, validateFeed pair x.1 x.2 = .ok ()) :
    validateFeeds pair (pre ++ rest) = validateFeeds pair rest := by
  induction pre with
  | nil => rfl
  | cons x xs ih =>
    obtain ⟨feed, path⟩ := x
    rw [List.cons_append, validateFeeds_cons_ok (hpre (feed, path) (by simp))]
    exact ih fun y hy => hpre y (List.mem_cons_of_mem _ hy)

theorem validateFeeds_ok_iff {C : Type} [DecidableEq C] (pair : CurrencyPair C)
    (feeds : List (FeedName × List (CurrencyPair C))) :
    validateFeeds pair feeds = .ok () ↔ ∀ x ∈ feeds, validateFeed pair x.1 x.2 = .ok () := by
  induction feeds with
  | nil => simp [validateFeeds]
  | cons x xs ih =>
    obtain ⟨feed, path⟩ := x
    cases hv : validateFeed pair feed path with
    | error err =>
      rw [validateFeeds_cons_error hv]
      simp [hv]
    | ok u =>
      cases u
      rw [validateFeeds_cons_ok hv, ih]
      simp [hv]

theorem checkChain_fail_at_first {C : Type} [DecidableEq C] (pair : CurrencyPair C)
    (feed : FeedName) (pre2 : List (CurrencyPair C)) (l r : CurrencyPair C)
    (rest : List (CurrencyPair C))
    (hch : List.Chain' (fun a b => a.has_shared b = true) (pre2 ++ [l]))
    (hlr : l.has_shared r = false) :
    checkChain pair feed (pre2 ++ l :: r :: rest) = .error ⟨feed, pair, .NoPath l r⟩ := by
  induction pre2 with
  | nil =>
    simp only [List.nil_append]
    unfold checkChain
    simp [hlr]
  | cons a tl ih =>
    cases tl with
    | nil =>
      have hal : a.has_shared l = true := (List.chain'_cons.mp hch).1
      simp only [List.cons_append, List.nil_append] at hch ⊢
      unfold checkChain
      simp only [hal, if_true]
      exact ih (by simp)
    | cons b tl2 =>
      simp only [List.cons_append] at hch ⊢
      have hab : a.has_shared b = true := (List.chain'_cons.mp hch).1
      unfold checkChain
      simp only [hab, if_true]
      exact ih (List.chain'_cons.mp hch).2

/-! Concrete currencies and feed names used by witnesses and counterexamples,
matching the source's own test vectors. -/

def BTC : String := "BTC"

def KSM : String := "KSM"

def USD : String := "USD"

def DOT : String := "DOT"

def KINT : String := "KINT"

def feedA : FeedName := "A"

def feedB : FeedName := "B"

def feedKraken : FeedName := "Kraken"

/-- C9: a `PriceConfig` with an empty feeds map validates successfully,
whatever its `pair` and `value` fields are. -/
theorem validate_empty_feeds {C : Type} [DecidableEq C] (pair : CurrencyPair C)
    (value : Option Float) :
    (PriceConfig.mk pair value []).validate = .ok () := rfl

/-- C7: the result of `PriceConfig::validate` is independent of the `value`
field — two configs differing only in `value` validate identically. -/
theorem validate_ignores_value {C : Type} [DecidableEq C] (pair : CurrencyPair C)
    (v1 v2 : Option Float) (feeds : List (FeedName × List (CurrencyPair C))) :
    (PriceConfig.mk pair v1 feeds).validate = (PriceConfig.mk pair v2 feeds).validate := rfl

/-- C4 (amended): for a feed whose path is empty or whose first pair contains
neither leg of the target pair, and all of whose predecessors in the map's
iteration order pass validation, `validate` returns the `NoStart` error
identifying that feed and the target pair. -/
theorem validate_no_start_of_first_failing {C : Type} [DecidableEq C] (cfg : PriceConfig C)
    (feed : FeedName) (path : List (CurrencyPair C))
    (pre post : List (FeedName × List (CurrencyPair C)))
    (hfeeds : cfg.feeds = pre ++ (feed, path) :: post)
    (hpre : ∀ x ∈ pre, validateFeed cfg.pair x.1 x.2 = .ok ())
    (hstart : ∀ cp, path.head? = some cp →
      cp.contains cfg.pair.base = false ∧ cp.contains cfg.pair.quote = false) :
    cfg.validate = .error ⟨feed, cfg.pair, .NoStart⟩ := by
  have hre : requiredEnd cfg.pair feed path = .error ⟨feed, cfg.pair, .NoStart⟩ := by
    cases path with
    | nil => rfl
    | cons cp rest =>
      obtain ⟨h1, h2⟩ := hstart cp rfl
      simp [requiredEnd, h1, h2]
  unfold PriceConfig.validate
  rw [hfeeds, validateFeeds_append_ok cfg.pair pre _ hpre,
    validateFeeds_cons_error (validateFeed_error_start hre)]

def cfgC4w : PriceConfig String :=
  ⟨⟨BTC, KSM⟩, none, [(feedA, [⟨BTC, KSM⟩]), (feedB, [])]⟩

/-- Witness for C4 (amended): the feed named `"B"` has an empty path, its
predecessor `"A"` validates, and `validate` reports `NoStart` for `"B"`. -/
theorem validate_no_start_of_first_failing_witness :
    (∀ x ∈ [(feedA, [CurrencyPair.mk BTC KSM])], validateFeed cfgC4w.pair x.1 x.2 = .ok ()) ∧
    cfgC4w.validate = .error ⟨feedB, ⟨BTC, KSM⟩, .NoStart⟩ :=
  ⟨by decide,
    validate_no_start_of_first_failing cfgC4w feedB [] [(feedA, [⟨BTC, KSM⟩])] [] rfl
      (by decide) (fun cp h => by simp at h)⟩

def cfgC4c : PriceConfig String :=
  ⟨⟨BTC, KSM⟩, none, [(feedA, [⟨BTC, BTC⟩]), (feedB, [])]⟩

/-- Counterexample to C4 as stated: the feed named `"B"` has an empty path,
yet `validate` does not return `NoStart` for `"B"` — it short-circuits on the
earlier feed `"A"`, whose path fails the end check. -/
theorem validate_no_start_counterexample :
    (feedB, ([] : List (CurrencyPair String))) ∈ cfgC4c.feeds ∧
    cfgC4c.validate = .error ⟨feedA, ⟨BTC, KSM⟩, .NoEnd⟩ ∧
    cfgC4c.validate ≠ .error ⟨feedB, ⟨BTC, KSM⟩, .NoStart⟩ := by decide

/-- C5 (amended): for a feed whose path passes the start check, whose last
pair contains the required end currency as neither leg, and all of whose
predecessors in the map's iteration order pass validation, `validate`
returns the `NoEnd` error identifying that feed and the target pair. -/
theorem validate_no_end_of_first_failing {C : Type} [DecidableEq C] (cfg : PriceConfig C)
    (feed : FeedName) (path : List (CurrencyPair C))
    (pre post : List (FeedName × List (CurrencyPair C)))
    (cp lp : CurrencyPair C) (endCur : C)
    (hfeeds : cfg.feeds = pre ++ (feed, path) :: post)
    (hpre : ∀ x ∈ pre, validateFeed cfg.pair x.1 x.2 = .ok ())
    (hhead : path.head? = some cp)
    (hstart : cp.contains cfg.pair.base = true ∨ cp.contains cfg.pair.quote = true)
    (hend : endCur = if cp.contains cfg.pair.base then cfg.pair.quote else cfg.pair.base)
    (hlast : path.getLast? = some lp)
    (hfail : lp.base ≠ endCur ∧ lp.quote ≠ endCur) :
    cfg.validate = .error ⟨feed, cfg.pair, .NoEnd⟩ := by
  have hre : requiredEnd cfg.pair feed path = .ok endCur := by
    unfold requiredEnd
    rw [hhead]
    cases hb : cp.contains cfg.pair.base with
    | true =>
      rw [hb] at hend
      simp at hend
      simp [hb, hend]
    | false =>
      rcases hstart with h | h
      · rw [hb] at h
        exact absurd h (by simp)
      · rw [hb] at hend
        simp at hend
        simp [hb, h, hend]
  have hce : checkEnd cfg.pair feed endCur path = .error ⟨feed, cfg.pair, .NoEnd⟩ := by
    unfold checkEnd
    rw [hlast]
    simp [hfail.1, hfail.2]
  unfold PriceConfig.validate
  rw [hfeeds, validateFeeds_append_ok cfg.pair pre _ hpre,
    validateFeeds_cons_error (validateFeed_error_end hre hce)]

def cfgC5w : PriceConfig String :=
  ⟨⟨BTC, KSM⟩, none, [(feedKraken, [⟨BTC, KINT⟩])]⟩

/-- Witness for C5 (amended): for pair `(BTC, KSM)` the single-feed path
`[(BTC, KINT)]` starts at `BTC`, so it must end at `KSM`; it does not, and
`validate` reports `NoEnd`. -/
theorem validate_no_end_of_first_failing_witness :
    (CurrencyPair.mk BTC KINT).contains BTC = true ∧
    cfgC5w.validate = .error ⟨feedKraken, ⟨BTC, KSM⟩, .NoEnd⟩ :=
  ⟨by decide,
    validate_no_end_of_first_failing cfgC5w feedKraken [⟨BTC, KINT⟩] [] []
      ⟨BTC, KINT⟩ ⟨BTC, KINT⟩ KSM rfl (by decide) rfl (Or.inl (by decide)) (by decide)
      rfl ⟨by decide, by decide⟩⟩

def cfgC5c : PriceConfig String :=
  ⟨⟨BTC, KSM⟩, none, [(feedA, []), (feedB, [⟨BTC, BTC⟩])]⟩

/-- Counterexample to C5 as stated: the feed named `"B"` passes the start
check and its last pair misses the required end `KSM`, yet `validate` does
not return a `NoEnd` error — it short-circuits on the earlier feed `"A"`,
whose path is empty. -/
theorem validate_no_end_counterexample :
    cfgC5c.validate = .error ⟨feedA, ⟨BTC, KSM⟩, .NoStart⟩ ∧
    cfgC5c.validate ≠ .error ⟨feedA, ⟨BTC, KSM⟩, .NoEnd⟩ ∧
    cfgC5c.validate ≠ .error ⟨feedB, ⟨BTC, KSM⟩, .NoEnd⟩ := by decide

/-- C6 (amended): `validate` succeeds iff every feed's path passes the
start, end and chain checks; and for a feed whose path passes the start and
end checks, has a connected prefix up to `l`, and then an adjacent pair
`(l, r)` sharing no leg — with all preceding feeds passing validation —
`validate` returns `NoPath(l, r)` carrying that earliest offending pair. -/
theorem validate_ok_iff_and_first_no_path {C : Type} [DecidableEq C] (cfg : PriceConfig C) :
    (cfg.validate = .ok () ↔ ∀ x ∈ cfg.feeds, validateFeed cfg.pair x.1 x.2 = .ok ()) ∧
    (∀ (feed : FeedName) (pre post : List (FeedName × List (CurrencyPair C)))
      (pre2 rest : List (CurrencyPair C)) (l r : CurrencyPair C) (endCur : C),
      cfg.feeds = pre ++ (feed, pre2 ++ l :: r :: rest) :: post →
      (∀ x ∈ pre, validateFeed cfg.pair x.1 x.2 = .ok ()) →
      requiredEnd cfg.pair feed (pre2 ++ l :: r :: rest) = .ok endCur →
      checkEnd cfg.pair feed endCur (pre2 ++ l :: r :: rest) = .ok () →
      List.Chain' (fun a b => a.has_shared b = true) (pre2 ++ [l]) →
      l.has_shared r = false →
      cfg.validate = .error ⟨feed, cfg.pair, .NoPath l r⟩) := by
  constructor
  · exact validateFeeds_ok_iff cfg.pair cfg.feeds
  · intro feed pre post pre2 rest l r endCur hfeeds hpre hre hce hch hlr
    unfold PriceConfig.validate
    rw [hfeeds, validateFeeds_append_ok cfg.pair pre _ hpre,
      validateFeeds_cons_error
        ((validateFeed_to_chain hre hce).trans
          (checkChain_fail_at_first cfg.pair feed pre2 l r rest hch hlr))]

def cfgC6w : PriceConfig String :=
  ⟨⟨BTC, KSM⟩, none, [(feedKraken, [⟨KSM, USD⟩, ⟨KINT, USD⟩, ⟨DOT, BTC⟩])]⟩

/-- Witness for C6 (amended): the disconnected-hop vector from the source's
tests — pair `(BTC, KSM)` with path `[(KSM, USD), (KINT, USD), (DOT, BTC)]`
fails with `NoPath((KINT, USD), (DOT, BTC))`; the iff part evaluated at the
same config. -/
theorem validate_ok_iff_and_first_no_path_witness :
    cfgC6w.validate = .error ⟨feedKraken, ⟨BTC, KSM⟩, .NoPath ⟨KINT, USD⟩ ⟨DOT, BTC⟩⟩ ∧
    (cfgC6w.validate = .ok () ↔ ∀ x ∈ cfgC6w.feeds, validateFeed cfgC6w.pair x.1 x.2 = .ok ()) :=
  ⟨(validate_ok_iff_and_first_no_path cfgC6w).2 feedKraken [] [] [⟨KSM, USD⟩] []
      ⟨KINT, USD⟩ ⟨DOT, BTC⟩ BTC rfl (by decide) (by decide) (by decide)
      (by
        simp only [List.cons_append, List.nil_append]
        exact List.chain'_cons.mpr ⟨by decide, List.chain'_singleton _⟩)
      (by decide),
    (validate_ok_iff_and_first_no_path cfgC6w).1⟩

def cfgC6c : PriceConfig String :=
  ⟨⟨BTC, KSM⟩, none, [(feedA, []), (feedB, [⟨KSM, USD⟩, ⟨KINT, USD⟩, ⟨DOT, BTC⟩])]⟩

/-- Counterexample to C6 as stated: the feed named `"B"` passes start and
end and has the disconnected hop `((KINT, USD), (DOT, BTC))`, yet `validate`
does not return that `NoPath` error — it short-circuits on the earlier feed
`"A"`, whose path is empty. -/
theorem validate_no_path_counterexample :
    cfgC6c.validate = .error ⟨feedA, ⟨BTC, KSM⟩, .NoStart⟩ ∧
    cfgC6c.validate ≠ .error ⟨feedB, ⟨BTC, KSM⟩, .NoPath ⟨KINT, USD⟩ ⟨DOT, BTC⟩⟩ := by decide

end OracleCfg

namespace BtcBridge

/-- `Network` from the bitcoin crate: which Bitcoin network an address
string is formatted for (main, test, regtest). -/
inductive Network where
  | bitcoin
  | testnet
  | regtest
deriving DecidableEq

/-- `Payload` from the bitcoin crate: the chain-agnostic representation of
an output's authorization condition.  Byte strings are lists of byte
values; `PubkeyHash` and `ScriptHash` carry 20-byte hashes by construction
in the source, recorded here as a well-formedness predicate. -/
inductive Payload where
  | PubkeyHash (hash : List Nat)
  | ScriptHash (hash : List Nat)
  | WitnessProgram (version : Nat) (program : List Nat)
deriving DecidableEq

/-- The fixed-size-hash invariants the source's `PubkeyHash`/`ScriptHash`
newtypes enforce by type. -/
def Payload.wf : Payload → Prop
  | .PubkeyHash hash => hash.length = 20
  | .ScriptHash hash => hash.length = 20
  | .WitnessProgram _ _ => True

/-- `ConversionError` kinds from the bitcoin crate's error taxonomy:
`InvalidPayload` for unrepresentable payloads, `ParseError` for malformed
address strings, and `InvalidFormat` standing for the hash-length errors of
the external `from_slice` constructors (which cannot occur for the
fixed-size hashes of well-formed variants). -/
inductive ConversionError where
  | InvalidPayload
  | ParseError
  | InvalidFormat
deriving DecidableEq

/-- `Address` from the bitcoin crate: a payload plus an explicit network. -/
structure Address where
  payload : Payload
  network : Network
deriving DecidableEq

/-- Modelled from the spec: the external script builder (rust-bitcoin's
`Script::new_p2pkh`) — `OP_DUP OP_HASH160 <push 20> hash OP_EQUALVERIFY
OP_CHECKSIG`. -/
def Script.new_p2pkh (hash : List Nat) : List Nat :=
  [0x76, 0xa9, 0x14] ++ hash ++ [0x88, 0xac]

/-- Modelled from the spec: the external script builder (rust-bitcoin's
`Script::new_p2sh`) — `OP_HASH160 <push 20> hash OP_EQUAL`. -/
def Script.new_p2sh (hash : List Nat) : List Nat :=
  [0xa9, 0x14] ++ hash ++ [0x87]

/-- Modelled from the spec: the external script builder (rust-bitcoin's
`Script::new_v0_wpkh`) — `OP_0 <push 20> hash`. -/
def Script.new_v0_wpkh (hash : List Nat) : List Nat :=
  [0x00, 0x14] ++ hash

/-- Modelled from the spec: the external script builder (rust-bitcoin's
`Script::new_v0_wsh`) — `OP_0 <push 32> hash`. -/
def Script.new_v0_wsh (hash : List Nat) : List Nat :=
  [0x00, 0x20] ++ hash

/-- Modelled from the spec: the external payload deriver (rust-bitcoin's
`Payload::from_script`) — recognizes the canonical P2PKH and P2SH script
templates and witness programs (version opcode followed by a single push of
2 to 40 bytes), returning `none` for anything else. -/
def Payload.from_script (s : List Nat) : Option Payload :=
  if s.length = 25 ∧ s.take 3 = [0x76, 0xa9, 0x14] ∧ s.drop 23 = [0x88, 0xac] then
    some (.PubkeyHash ((s.drop 3).take 20))
  else if s.length = 23 ∧ s.take 2 = [0xa9, 0x14] ∧ s.drop 22 = [0x87] then
    some (.ScriptHash ((s.drop 2).take 20))
  else
    match s with
    | v :: len :: program =>
      if (v = 0 ∨ (0x51 ≤ v ∧ v ≤ 0x60)) ∧ len = program.length ∧
          2 ≤ program.length ∧ program.length ≤ 40 then
        some (.WitnessProgram (if v = 0 then 0 else v - 0x50) program)
      else none
    | _ => none

/-- Modelled from the spec: the Base58Check version bytes the external
serializer uses for P2PKH addresses (0 on mainnet, 111 on test networks). -/
def p2pkhVersion : Network → Nat
  | .bitcoin => 0
  | .testnet => 111
  | .regtest => 111

/-- Modelled from the spec: the Base58Check version bytes the external
serializer uses for P2SH addresses (5 on mainnet, 196 on test networks). -/
def p2shVersion : Network → Nat
  | .bitcoin => 5
  | .testnet => 196
  | .regtest => 196

/-- Modelled from the spec: the Bech32 human-readable parts of the three
networks, plus an unknown tag so that the parser stays fallible. -/
inductive Hrp where
  | bc
  | tb
  | bcrt
  | unknown
deriving DecidableEq

/-- Modelled from the spec: which human-readable part the external
serializer uses per network. -/
def bech32Hrp : Network → Hrp
  | .bitcoin => .bc
  | .testnet => .tb
  | .regtest => .bcrt

/-- Modelled from the spec: the information content of a rendered address
string — a Base58Check string determines exactly a version byte and a
20-byte hash, a Bech32 string exactly a human-readable part, a witness
version and a program. -/
inductive AddrString where
  | base58 (version : Nat) (hash : List Nat)
  | bech32 (hrp : Hrp) (witnessVersion : Nat) (program : List Nat)
deriving DecidableEq

/-- Modelled from the spec: the external serializer (`Address`'s `Display`):
renders the payload under the network's prefix; rendering is total. -/
def Address.to_string (self : Address) : AddrString :=
  match self.payload with
  | .PubkeyHash hash => .base58 (p2pkhVersion self.network) hash
  | .ScriptHash hash => .base58 (p2shVersion self.network) hash
  | .WitnessProgram version program => .bech32 (bech32Hrp self.network) version program

/-- Modelled from the spec: the BIP-173 validity checks the external parser
applies to a witness program (version at most 16, program length 2 to 40
bytes, and 20 or 32 bytes for version 0). -/
def Address.fromWitnessParts (network : Network) (version : Nat) (program : List Nat) :
    Except ConversionError Address :=
  if version ≤ 16 ∧ 2 ≤ program.length ∧ program.length ≤ 40 ∧
      (version = 0 → program.length = 20 ∨ program.length = 32) then
    .ok ⟨.WitnessProgram version program, network⟩
  else .error .ParseError

/-- Modelled from the spec: the external parser (`Address::from_str`):
recognizes the known Base58Check version bytes (test and regtest share
theirs, so Base58 strings parse back with network `testnet`) and the known
Bech32 prefixes with the BIP-173 witness-program constraints. -/
def Address.from_str : AddrString → Except ConversionError Address
  | .base58 version hash =>
    if hash.length = 20 then
      if version = 0 then .ok ⟨.PubkeyHash hash, .bitcoin⟩
      else if version = 5 then .ok ⟨.ScriptHash hash, .bitcoin⟩
      else if version = 111 then .ok ⟨.PubkeyHash hash, .testnet⟩
      else if version = 196 then .ok ⟨.ScriptHash hash, .testnet⟩
      else .error .ParseError
    else .error .ParseError
  | .bech32 hrp version program =>
    match hrp with
    | .bc => Address.fromWitnessParts .bitcoin version program
    | .tb => Address.fromWitnessParts .testnet version program
    | .bcrt => Address.fromWitnessParts .regtest version program
    | .unknown => .error .ParseError

/-- Modelled from the spec: the compact bridge-native address enum
(`interbtc_bitcoin::Address`, an external crate) — 20-byte hashes for the
P2PKH, P2SH and P2WPKHv0 forms and a 32-byte program for P2WSHv0 (the
H160/H256 newtypes of the source, here length-checked at use sites). -/
inductive InterbtcAddress where
  | P2PKH (hash : List Nat)
  | P2SH (hash : List Nat)
  | P2WPKHv0 (hash : List Nat)
  | P2WSHv0 (hash : List Nat)
deriving DecidableEq

/-- `PartialAddress::from_payload` for `interbtc_bitcoin::Address`
(`addr.rs` lines 39-51): key hashes and script hashes map to `P2PKH` and
`P2SH`; a witness program maps to `P2WPKHv0` when its program is 20 bytes
and is rejected with `InvalidPayload` otherwise. -/
def InterbtcAddress.from_payload : Payload → Except ConversionError InterbtcAddress
  | .PubkeyHash hash => .ok (.P2PKH hash)
  | .ScriptHash hash => .ok (.P2SH hash)
  | .WitnessProgram _ program =>
    if program.length = 20 then .ok (.P2WPKHv0 program)
    else .error .InvalidPayload

/-- `PartialAddress::to_address` for `interbtc_bitcoin::Address`
(`addr.rs` lines 58-68): build the exact output script for the variant,
re-derive the canonical payload from it, and pair it with the network.
The length guards stand for the `from_slice` constructors, which only
accept hashes of the right fixed size. -/
def InterbtcAddress.to_address (self : InterbtcAddress) (network : Network) :
    Except ConversionError Address :=
  match (match self with
    | .P2PKH hash =>
      if hash.length = 20 then .ok (Script.new_p2pkh hash) else .error .InvalidFormat
    | .P2SH hash =>
      if hash.length = 20 then .ok (Script.new_p2sh hash) else .error .InvalidFormat
    | .P2WPKHv0 hash =>
      if hash.length = 20 then .ok (Script.new_v0_wpkh hash) else .error .InvalidFormat
    | .P2WSHv0 hash =>
      if hash.length = 32 then .ok (Script.new_v0_wsh hash) else .error .InvalidFormat :
      Except ConversionError (List Nat)) with
  | .error err => .error err
  | .ok script =>
    match Payload.from_script script with
    | some payload => .ok ⟨payload, network⟩
    | none => .error .InvalidPayload

/-- `PartialAddress::encode_str` (trait default, `addr.rs` lines 25-28):
`to_address` then render. -/
def InterbtcAddress.encode_str (self : InterbtcAddress) (network : Network) :
    Except ConversionError AddrString :=
  match self.to_address network with
  | .error err => .error err
  | .ok address => .ok address.to_string

/-- `PartialAddress::decode_str` for `interbtc_bitcoin::Address`
(`addr.rs` lines 53-56): parse the string, then `from_payload` on the
parsed payload. -/
def InterbtcAddress.decode_str (btc_address : AddrString) :
    Except ConversionError InterbtcAddress :=
  match Address.from_str btc_address with
  | .error err => .error err
  | .ok addr => InterbtcAddress.from_payload addr.payload

/-- `PartialAddress::from_payload` for `Payload` (`addr.rs` lines 72-74):
the identity, always `Ok`. -/
def Payload.from_payload (payload : Payload) : Except ConversionError Payload :=
  .ok payload

/-- `PartialAddress::decode_str` for `Payload` (`addr.rs` lines 76-79):
parse the string and keep its payload. -/
def Payload.decode_str (btc_address : AddrString) : Except ConversionError Payload :=
  match Address.from_str btc_address with
  | .error err => .error err
  | .ok address => .ok address.payload

/-- `PartialAddress::to_address` for `Payload` (`addr.rs` lines 81-86):
pair the payload with the given network, always `Ok`. -/
def Payload.to_address (self : Payload) (network : Network) :
    Except ConversionError Address :=
  .ok ⟨self, network⟩

/-- `PartialAddress::encode_str` (trait default) for `Payload`. -/
def Payload.encode_str (self : Payload) (network : Network) :
    Except ConversionError AddrString :=
  match self.to_address network with
  | .error err => .error err
  | .ok address => .ok address.to_string

/-! Helper lemmas: the canonical scripts re-derive their source payloads. -/

theorem from_script_new_p2pkh (hash : List Nat) (hl : hash.length = 20) :
    Payload.from_script (Script.new_p2pkh hash) = some (.PubkeyHash hash) := by
  unfold Script.new_p2pkh Payload.from_script
  rw [List.append_assoc]
  have ht3 : List.take 3 ([0x76, 0xa9, 0x14] ++ (hash ++ [0x88, 0xac])) = [0x76, 0xa9, 0x14] :=
    List.take_left' rfl
  have hd3 : List.drop 3 ([0x76, 0xa9, 0x14] ++ (hash ++ [0x88, 0xac])) = hash ++ [0x88, 0xac] :=
    List.drop_left' rfl
  have hd23 : List.drop 23 ([0x76, 0xa9, 0x14] ++ (hash ++ [0x88, 0xac])) = [0x88, 0xac] := by
    rw [← List.append_assoc]
    exact List.drop_left' (by simp [hl])
  have ht20 : List.take 20 (hash ++ [0x88, 0xac]) = hash := List.take_left' hl
  rw [if_pos ⟨by simp [hl], ht3, hd23⟩, hd3, ht20]

theorem from_script_new_p2sh (hash : List Nat) (hl : hash.length = 20) :
    Payload.from_script (Script.new_p2sh hash) = some (.ScriptHash hash) := by
  unfold Script.new_p2sh Payload.from_script
  rw [List.append_assoc]
  have ht2 : List.take 2 ([0xa9, 0x14] ++ (hash ++ [0x87])) = [0xa9, 0x14] :=
    List.take_left' rfl
  have hd2 : List.drop 2 ([0xa9, 0x14] ++ (hash ++ [0x87])) = hash ++ [0x87] :=
    List.drop_left' rfl
  have hd22 : List.drop 22 ([0xa9, 0x14] ++ (hash ++ [0x87])) = [0x87] := by
    rw [← List.append_assoc]
    exact List.drop_left' (by simp [hl])
  have ht20 : List.take 20 (hash ++ [0x87]) = hash := List.take_left' hl
  rw [if_neg (by simp [hl]), if_pos ⟨by simp [hl], ht2, hd22⟩, hd2, ht20]

theorem from_script_new_v0_wpkh (hash : List Nat) (hl : hash.length = 20) :
    Payload.from_script (Script.new_v0_wpkh hash) = some (.WitnessProgram 0 hash) := by
  unfold Script.new_v0_wpkh Payload.from_script
  rw [if_neg (by simp [hl]), if_neg (by simp [hl])]
  simp [hl]

theorem from_script_new_v0_wsh (hash : List Nat) (hl : hash.length = 32) :
    Payload.from_script (Script.new_v0_wsh hash) = some (.WitnessProgram 0 hash) := by
  unfold Script.new_v0_wsh Payload.from_script
  rw [if_neg (by simp [hl]), if_neg (by simp [hl])]
  simp [hl]

theorem to_address_P2PKH (hash : List Nat) (n : Network) (hl : hash.length = 20) :
    InterbtcAddress.to_address (.P2PKH hash) n = .ok ⟨.PubkeyHash hash, n⟩ := by
  simp [InterbtcAddress.to_address, hl, from_script_new_p2pkh hash hl]

theorem to_address_P2SH (hash : List Nat) (n : Network) (hl : hash.length = 20) :
    InterbtcAddress.to_address (.P2SH hash) n = .ok ⟨.ScriptHash hash, n⟩ := by
  simp [InterbtcAddress.to_address, hl, from_script_new_p2sh hash hl]

theorem to_address_P2WPKHv0 (hash : List Nat) (n : Network) (hl : hash.length = 20) :
    InterbtcAddress.to_address (.P2WPKHv0 hash) n = .ok ⟨.WitnessProgram 0 hash, n⟩ := by
  simp [InterbtcAddress.to_address, hl, from_script_new_v0_wpkh hash hl]

/-- C1 (amended): for every payload accepted by `from_payload` — key
hashes, script hashes and 20-byte witness programs; 32-byte `P2WSHv0`
programs are rejected — encoding under any network and decoding gives back
the original variant. -/
theorem decode_encode_roundtrip (p : Payload) (n : Network) (a : InterbtcAddress)
    (hwf : p.wf) (hfp : InterbtcAddress.from_payload p = .ok a) :
    ∃ s, a.encode_str n = .ok s ∧ InterbtcAddress.decode_str s = .ok a := by
  cases p with
  | PubkeyHash hash =>
    have hl : hash.length = 20 := hwf
    simp only [InterbtcAddress.from_payload, Except.ok.injEq] at hfp
    subst hfp
    refine ⟨.base58 (p2pkhVersion n) hash, ?_, ?_⟩
    · simp [InterbtcAddress.encode_str, to_address_P2PKH hash n hl, Address.to_string]
    · cases n <;>
        simp [InterbtcAddress.decode_str, Address.from_str, p2pkhVersion, hl,
          InterbtcAddress.from_payload]
  | ScriptHash hash =>
    have hl : hash.length = 20 := hwf
    simp only [InterbtcAddress.from_payload, Except.ok.injEq] at hfp
    subst hfp
    refine ⟨.base58 (p2shVersion n) hash, ?_, ?_⟩
    · simp [InterbtcAddress.encode_str, to_address_P2SH hash n hl, Address.to_string]
    · cases n <;>
        simp [InterbtcAddress.decode_str, Address.from_str, p2shVersion, hl,
          InterbtcAddress.from_payload]
  | WitnessProgram version program =>
    by_cases hl : program.length = 20
    · simp only [InterbtcAddress.from_payload, hl, if_pos, Except.ok.injEq] at hfp
      subst hfp
      refine ⟨.bech32 (bech32Hrp n) 0 program, ?_, ?_⟩
      · simp [InterbtcAddress.encode_str, to_address_P2WPKHv0 program n hl, Address.to_string]
      · cases n <;>
          simp [InterbtcAddress.decode_str, Address.from_str, bech32Hrp,
            Address.fromWitnessParts, hl, InterbtcAddress.from_payload]
    · simp [InterbtcAddress.from_payload, hl] at hfp

def h20w : List Nat := List.replicate 20 7

/-- Witness for C1 (amended): a concrete 20-byte key hash round-trips on
regtest. -/
theorem decode_encode_roundtrip_witness :
    Payload.wf (.PubkeyHash h20w) ∧
    InterbtcAddress.from_payload (.PubkeyHash h20w) = .ok (.P2PKH h20w) ∧
    ∃ s, InterbtcAddress.encode_str (.P2PKH h20w) .regtest = .ok s ∧
      InterbtcAddress.decode_str s = .ok (.P2PKH h20w) :=
  ⟨by rfl, rfl, decode_encode_roundtrip (.PubkeyHash h20w) .regtest (.P2PKH h20w) (by rfl) rfl⟩

def h32w : List Nat := List.replicate 32 9

/-- Counterexample to C1 as stated: the P2WSHv0 script kind does not
round-trip — its 32-byte witness-program payload is rejected by
`from_payload`, and a `P2WSHv0` variant, once encoded, decodes to
`InvalidPayload` rather than to itself. -/
theorem decode_encode_roundtrip_counterexample :
    InterbtcAddress.from_payload (.WitnessProgram 0 h32w) = .error .InvalidPayload ∧
    InterbtcAddress.encode_str (.P2WSHv0 h32w) .regtest = .ok (.bech32 .bcrt 0 h32w) ∧
    InterbtcAddress.decode_str (.bech32 .bcrt 0 h32w) = .error .InvalidPayload := by
  refine ⟨?_, ?_, ?_⟩ <;> decide

/-- C10: the `Payload` implementation of `PartialAddress` is lossless and
infallible — `from_payload` is the identity, `to_address` pairs the payload
with the network, and `decode_str` returns exactly the parser's result
(mapped to its payload), so it fails exactly when parsing fails, with the
same error. -/
theorem payload_impl_lossless (p : Payload) (n : Network) (s : AddrString) :
    Payload.from_payload p = .ok p ∧
    Payload.to_address p n = .ok ⟨p, n⟩ ∧
    Payload.decode_str s = (Address.from_str s).map Address.payload := by
  refine ⟨rfl, rfl, ?_⟩
  cases h : Address.from_str s <;> simp [Payload.decode_str, h, Except.map]

/-! Deposit-key derivation (`addr.rs` lines 89-93). -/

/-- The order of the secp256k1 group. -/
def secp256k1_order : Nat :=
  0xFFFFFFFFFFFFFFFFFFFFFFFFFFFFFFFEBAAEDCE6AF48A03BBFD25E8CD0364141

/-- Modelled from the spec: a scalar the external secp256k1 provider
accepts as a secret key is a curve-order element — nonzero and below the
group order. -/
def validSecretKey (s : Nat) : Prop := 0 < s ∧ s < secp256k1_order

instance (s : Nat) : Decidable (validSecretKey s) :=
  inferInstanceAs (Decidable (_ ∧ _))

/-- The error kind the key-derivation path returns when the provider
rejects a scalar. -/
inductive Error where
  | InvalidSecretKey
deriving DecidableEq

/-- `calculate_deposit_secret_key` (`addr.rs` lines 89-93).  The external
`SecretKey::mul_assign` is modelled from the spec: it returns
`vault_secret * request_secret (mod group order)` and fails iff a scalar is
not a valid curve-order element. -/
def calculate_deposit_secret_key (vault_key issue_key : Nat) : Except Error Nat :=
  if validSecretKey vault_key ∧ validSecretKey issue_key then
    .ok ((vault_key * issue_key) % secp256k1_order)
  else .error .InvalidSecretKey

/-- Modelled from the spec: the secp256k1 group is cyclic of prime order
`n`, so `s ↦ s·G` is the group isomorphism from ℤ/nℤ; a public key is
represented by its discrete logarithm, i.e. `from_secret_key s = s mod n`. -/
def PublicKey.from_secret_key (s : Nat) : Nat := s % secp256k1_order

/-- Modelled from the spec: `PublicKey::mul_assign` — multiply a public
point by a scalar tweak, rejecting an invalid tweak; in the discrete-log
representation this multiplies the exponent modulo the group order. -/
def PublicKey.mul_assign (point tweak : Nat) : Except Error Nat :=
  if validSecretKey tweak then .ok ((point * tweak) % secp256k1_order)
  else .error .InvalidSecretKey

/-- C3: for valid scalars, `calculate_deposit_secret_key` returns
`Ok(vault_secret * request_secret mod group order)`. -/
theorem calculate_deposit_secret_key_ok (v c : Nat)
    (hv : validSecretKey v) (hc : validSecretKey c) :
    calculate_deposit_secret_key v c = .ok ((v * c) % secp256k1_order) := by
  unfold calculate_deposit_secret_key
  rw [if_pos ⟨hv, hc⟩]

/-- Witness for C3 at `v = 2`, `c = 3`. -/
theorem calculate_deposit_secret_key_ok_witness :
    validSecretKey 2 ∧ validSecretKey 3 ∧
    calculate_deposit_secret_key 2 3 = .ok ((2 * 3) % secp256k1_order) :=
  ⟨by decide, by decide, calculate_deposit_secret_key_ok 2 3 (by decide) (by decide)⟩

/-- C2: derivation commutes — the public key of `derive(v, c)` equals the
vault's public point multiplied by `c` and equally the request's public
point multiplied by `v`. -/
theorem derive_commutes (v c : Nat) (hv : validSecretKey v) (hc : validSecretKey c) :
    ∃ d, calculate_deposit_secret_key v c = .ok d ∧
      PublicKey.mul_assign (PublicKey.from_secret_key v) c =
        .ok (PublicKey.from_secret_key d) ∧
      PublicKey.mul_assign (PublicKey.from_secret_key c) v =
        .ok (PublicKey.from_secret_key d) := by
  refine ⟨(v * c) % secp256k1_order, calculate_deposit_secret_key_ok v c hv hc, ?_, ?_⟩
  · unfold PublicKey.mul_assign PublicKey.from_secret_key
    rw [if_pos hc]
    congr 1
    rw [Nat.mod_mul_mod, Nat.mod_mod_of_dvd _ dvd_rfl]
  · unfold PublicKey.mul_assign PublicKey.from_secret_key
    rw [if_pos hv]
    congr 1
    rw [Nat.mod_mul_mod, Nat.mul_comm, Nat.mod_mod_of_dvd _ dvd_rfl]

/-- Witness for C2 at `v = 2`, `c = 3`. -/
theorem derive_commutes_witness :
    validSecretKey 2 ∧ validSecretKey 3 ∧
    ∃ d, calculate_deposit_secret_key 2 3 = .ok d ∧
      PublicKey.mul_assign (PublicKey.from_secret_key 2) 3 =
        .ok (PublicKey.from_secret_key d) ∧
      PublicKey.mul_assign (PublicKey.from_secret_key 3) 2 =
        .ok (PublicKey.from_secret_key d) :=
  ⟨by decide, by decide, derive_commutes 2 3 (by decide) (by decide)⟩

/-- C8: `calculate_deposit_secret_key` is total over its two arguments —
it rejects any invalid scalar with an error (never a panic) and otherwise
returns the derived scalar; as a Lean function it is pure by construction. -/
theorem calculate_deposit_secret_key_total (v c : Nat) :
    (¬ (validSecretKey v ∧ validSecretKey c) →
      calculate_deposit_secret_key v c = .error .InvalidSecretKey) ∧
    (calculate_deposit_secret_key v c = .ok ((v * c) % secp256k1_order) ∨
      calculate_deposit_secret_key v c = .error .InvalidSecretKey) := by
  unfold calculate_deposit_secret_key
  by_cases h : validSecretKey v ∧ validSecretKey c
  · rw [if_pos h]
    exact ⟨fun hn => absurd h hn, Or.inl rfl⟩
  · rw [if_neg h]
    exact ⟨fun _ => rfl, Or.inr rfl⟩

/-- Witness for C8: the invalid scalar zero is rejected with an error. -/
theorem calculate_deposit_secret_key_total_witness :
    ¬ (validSecretKey 0 ∧ validSecretKey 3) ∧
    calculate_deposit_secret_key 0 3 = .error .InvalidSecretKey :=
  ⟨by decide, (calculate_deposit_secret_key_total 0 3).1 (by decide)⟩

end BtcBridge
